/-
Verification of the consultant booking service (`consultantUser` Django app).

Shallow embedding: the database is a value of type `DB` (lists of rows, one
list per model of `models.py`); every view handler of `views.py` becomes a
pure function from the request's parsed parameters and the current `DB` to a
response value and (for writes) an updated `DB`.  Request parameters that the
Python code receives as strings are modelled by `Param α`: `missing` stands
for an absent key (`request.data.get` returning `None`), `malformed` for a
present string that the corresponding parser (`parse_date` / `parse_time` /
`int` / serializer field) rejects, and `ok v` for a string that parses to `v`.
Dates and times are naive calendar values, as in the source (no timezones).
-/
import Mathlib

namespace ConsultantUser

/-- A calendar date, as Django's `DateField` stores it (`datetime.date`).
`year` is an `Int` so that the `int(year)` query parameter embeds directly;
Python's `datetime.date` additionally restricts `1 ≤ year ≤ 9999`. -/
structure Date where
  year : Int
  month : Nat
  day : Nat
deriving DecidableEq, Repr

/-- A clock time, as Django's `TimeField` stores it (`datetime.time`). -/
structure Time where
  hour : Nat
  minute : Nat
  second : Nat
deriving DecidableEq, Repr

/-- Seconds since midnight; two valid clock times compare equal/less exactly
when their `toSec` values do. -/
def Time.toSec (t : Time) : Nat :=
  t.hour * 3600 + t.minute * 60 + t.second

/-- Less-or-equal on times (`a <= b`), as the database compares `TimeField` values. -/
def Time.le (a b : Time) : Prop := a.toSec ≤ b.toSec

instance : DecidableRel Time.le := fun a b => Nat.decLe a.toSec b.toSec

/-- Less-or-equal on dates (`a <= b`): lexicographic on (year, month, day), which is exactly
how the database compares `DateField` values for valid calendar dates. -/
def Date.le (a b : Date) : Prop :=
  a.year < b.year ∨
    (a.year = b.year ∧
      (a.month < b.month ∨ (a.month = b.month ∧ a.day ≤ b.day)))

instance : DecidableRel Date.le := fun a b => by
  unfold Date.le; exact inferInstance

/-- Strict less-than on dates (`a < b`) (strict lexicographic order). -/
def Date.lt (a b : Date) : Prop :=
  a.year < b.year ∨
    (a.year = b.year ∧
      (a.month < b.month ∨ (a.month = b.month ∧ a.day < b.day)))

instance : DecidableRel Date.lt := fun a b => by
  unfold Date.lt; exact inferInstance

/-- Leap-year rule used by Python's `calendar` module. -/
def isLeapYear (y : Int) : Bool :=
  y % 4 == 0 && (y % 100 != 0 || y % 400 == 0)

/-- Number of days in a month, as returned by `calendar.monthrange(y, m)[1]`. -/
def daysInMonth (y : Int) (m : Nat) : Nat :=
  if m = 2 then (if isLeapYear y then 29 else 28)
  else if m = 4 ∨ m = 6 ∨ m = 9 ∨ m = 11 then 30
  else 31

/-- A date that `datetime.date` would actually construct. -/
def Date.valid (d : Date) : Prop :=
  1 ≤ d.year ∧ d.year ≤ 9999 ∧ 1 ≤ d.month ∧ d.month ≤ 12 ∧
    1 ≤ d.day ∧ d.day ≤ daysInMonth d.year d.month

instance (d : Date) : Decidable d.valid := by
  unfold Date.valid; exact inferInstance

/-- A request parameter as the view receives it: absent, present but rejected
by the parser, or parsed to a value. -/
inductive Param (α : Type) where
  | missing
  | malformed
  | ok (val : α)
deriving DecidableEq, Repr

/-- Model `models.Availability`: one concrete bookable interval. -/
structure Availability where
  id : Nat
  consultant : Nat
  start_time : Time
  end_time : Time
  date : Date
  is_booked : Bool
deriving DecidableEq, Repr

/-- Model `models.RecurringAvailability`: a weekly template. -/
structure RecurringAvailability where
  id : Nat
  consultant : Nat
  day_of_week : Int
  start_time : Time
  end_time : Time
  is_active : Bool
deriving DecidableEq, Repr

/-- Model `models.Booking`: pairs a reserved `Availability` with a `User`. -/
structure Booking where
  id : Nat
  availability : Nat
  user : Nat
deriving DecidableEq, Repr

/-- The relational store: `User` and `Consultant` rows carry only an id here
(their name fields never influence control flow in the verified views). -/
structure DB where
  users : List Nat
  consultants : List Nat
  availabilities : List Availability
  recurrings : List RecurringAvailability
  bookings : List Booking
deriving DecidableEq, Repr

/-- Ordering `order_by('date', 'start_time')`: lexicographic on (date, start_time). -/
def rowLe (a b : Availability) : Prop :=
  a.date.year < b.date.year ∨
    (a.date.year = b.date.year ∧
      (a.date.month < b.date.month ∨
        (a.date.month = b.date.month ∧
          (a.date.day < b.date.day ∨
            (a.date.day = b.date.day ∧
              a.start_time.toSec ≤ b.start_time.toSec)))))

instance : DecidableRel rowLe := fun a b => by
  unfold rowLe; exact inferInstance

instance : IsTotal Availability rowLe := by
  constructor; intro a b; unfold rowLe; omega

instance : IsTrans Availability rowLe := by
  constructor; intro a b c; unfold rowLe; omega

/-- Ordering `order_by('start_time')`. -/
def startLe (a b : Availability) : Prop :=
  a.start_time.toSec ≤ b.start_time.toSec

instance : DecidableRel startLe := fun a b => by
  unfold startLe; exact inferInstance

instance : IsTotal Availability startLe := by
  constructor; intro a b; unfold startLe; omega

instance : IsTrans Availability startLe := by
  constructor; intro a b c; unfold startLe; omega

/-- Next primary key for a list of existing ids (strictly larger than all). -/
def freshId (ids : List Nat) : Nat :=
  ids.foldr (fun i m => max (i + 1) m) 0

/-- Error results shared by the read-only views.  `status` gives the HTTP
code the view attaches. -/
inductive ApiError where
  | notFound
  | invalidArgument
  | internal
deriving DecidableEq, Repr

def ApiError.status : ApiError → Nat
  | .notFound => 404
  | .invalidArgument => 400
  | .internal => 500

/-- Results of `ConsultantAvailableTimeCreateView.post` (views.py:66-104). -/
inductive CreateAvailabilityResp where
  | created
  | notFuture
  | serializerErrors
  | consultantNotFound
  | internalError
deriving DecidableEq, Repr

def CreateAvailabilityResp.status : CreateAvailabilityResp → Nat
  | .created => 201
  | .notFuture => 400
  | .serializerErrors => 400
  | .consultantNotFound => 404
  | .internalError => 500

/-- View `ConsultantAvailableTimeCreateView.post` (views.py:66-104).
`today` is `timezone.now().date()`.  Control flow of the source:
`Consultant.objects.get(id=pk)` raises `DoesNotExist` → 404; then
`parse_date(date) <= timezone.now().date()` → 400 "Only future dates are
allowed" — but when `date` is absent or unparsable, `parse_date` returns
`None` or raises, the comparison raises `TypeError`, and the generic
`except Exception` answers 500, so a bad date is `internalError` here, not a
400; then `AvailabilitySerializer` validates the two time fields (a missing
or unparsable time is a serializer error → 400) and saves the row with
`is_booked = False`.  The serializer performs no `start_time < end_time`
check and no duplicate check. -/
def ConsultantAvailableTimeCreateView.post (db : DB) (today : Date) (pk : Nat)
    (dateP : Param Date) (stP etP : Param Time) : CreateAvailabilityResp × DB :=
  if pk ∈ db.consultants then
    match dateP with
    | .ok d =>
      if Date.le d today then
        (.notFuture, db)
      else
        match stP, etP with
        | .ok st, .ok et =>
          (.created,
            { db with availabilities := db.availabilities ++
                [{ id := freshId (db.availabilities.map (·.id)),
                   consultant := pk, start_time := st, end_time := et,
                   date := d, is_booked := false }] })
        | _, _ => (.serializerErrors, db)
    | _ => (.internalError, db)
  else (.consultantNotFound, db)

/-- View `ConsultantGetAvailability.get` (views.py:112-132): open slots of one
consultant, `filter(consultant, is_booked=False).order_by('date',
'start_time')`; 404 when the consultant id does not resolve. -/
def ConsultantGetAvailability.get (db : DB) (pk : Nat) :
    Except ApiError (List Availability) :=
  if pk ∈ db.consultants then
    .ok (List.insertionSort rowLe
      (db.availabilities.filter fun a => a.consultant == pk && a.is_booked == false))
  else .error .notFound

/-- View `DailyAvailabilityView.get` (views.py:143-186): open slots of every
consultant on one date, ordered by `start_time` only; 400 when the date is
missing or unparsable or strictly before today. -/
def DailyAvailabilityView.get (db : DB) (today : Date) (dateP : Param Date) :
    Except ApiError (List Availability) :=
  match dateP with
  | .missing => .error .invalidArgument
  | .malformed => .error .invalidArgument
  | .ok d =>
    if Date.lt d today then .error .invalidArgument
    else
      .ok (List.insertionSort startLe
        (db.availabilities.filter fun a => a.date == d && a.is_booked == false))

/-- View `MonthlyAvailabilityView.get` (views.py:326-358): `int(month)` /
`int(year)` raise on a missing or malformed parameter → 400; a month outside
1..12 raises → 400; `datetime.date(year, month, 1)` raises when the year is
outside Python's 1..9999 range → 400; otherwise the filter keeps open slots
with `start_date <= date <= end_date` where `end_date`'s day is
`calendar.monthrange(year, month)[1]`. -/
def MonthlyAvailabilityView.get (db : DB) (monthP yearP : Param Int) :
    Except ApiError (List Availability) :=
  match monthP, yearP with
  | .ok m, .ok y =>
    if 1 ≤ m ∧ m ≤ 12 then
      if 1 ≤ y ∧ y ≤ 9999 then
        .ok (List.insertionSort rowLe
          (db.availabilities.filter fun a =>
            decide (Date.le ⟨y, m.toNat, 1⟩ a.date) &&
            decide (Date.le a.date ⟨y, m.toNat, daysInMonth y m.toNat⟩) &&
            a.is_booked == false))
      else .error .invalidArgument
    else .error .invalidArgument
  | _, _ => .error .invalidArgument

/-- View `TimeRangeAvailabilityView.get` (views.py:366-407): `if not all([...])`
rejects a missing parameter → 400; a parse failure raises `ValueError` → 400;
otherwise the filter keeps open slots with `date` in [start_date, end_date],
`start_time >= start_time` and `end_time <= end_time` (containment). -/
def TimeRangeAvailabilityView.get (db : DB) (sdP edP : Param Date)
    (stP etP : Param Time) : Except ApiError (List Availability) :=
  if sdP = .missing ∨ edP = .missing ∨ stP = .missing ∨ etP = .missing then
    .error .invalidArgument
  else
    match sdP, edP, stP, etP with
    | .ok sd, .ok ed, .ok st, .ok et =>
      .ok (List.insertionSort rowLe
        (db.availabilities.filter fun a =>
          decide (Date.le sd a.date) && decide (Date.le a.date ed) &&
          decide (Time.le st a.start_time) && decide (Time.le a.end_time et) &&
          a.is_booked == false))
    | _, _, _, _ => .error .invalidArgument

/-- The ORM lookup `consultant_id=pk, date=d, start_time=st, end_time=et`
shared by Reserve's `select_for_update` filter and Delete's `get`. -/
def availMatches (pk : Nat) (d : Date) (st et : Time) (a : Availability) : Bool :=
  a.consultant == pk && a.date == d && a.start_time == st && a.end_time == et

/-- The Reserve view's Booking filter `availability__consultant_id=pk,
availability__date=d, availability__start_time=st, availability__end_time=et`:
the booking's FK target row must match the requested tuple. -/
def bookingMatchesSlot (db : DB) (pk : Nat) (d : Date) (st et : Time)
    (b : Booking) : Bool :=
  db.availabilities.any fun a => a.id == b.availability && availMatches pk d st et a

/-- Results of `ReserveConsultantTimeView.post` (views.py:194-285). -/
inductive ReserveResp where
  | created (booking_id : Nat)
  | missingFields
  | consultantNotFound
  | userNotFound
  | alreadyBooked
  | noSlot
  | serializerErrors
  | internalError
deriving DecidableEq, Repr

def ReserveResp.status : ReserveResp → Nat
  | .created _ => 201
  | .missingFields => 400
  | .consultantNotFound => 404
  | .userNotFound => 404
  | .alreadyBooked => 400
  | .noSlot => 404
  | .serializerErrors => 400
  | .internalError => 500

def ReserveResp.isCreated : ReserveResp → Bool
  | .created _ => true
  | _ => false

/-- View `ReserveConsultantTimeView.post` (views.py:194-285).  Source order:
presence check on the four fields → 400; consultant lookup → 404; user
lookup → 404 (an unparsable user id raises `ValueError` → generic except →
500); then, inside `transaction.atomic()`: the Booking filter on the tuple
(an unparsable date/time raises `ValidationError` → 400) → 400 "already
booked" when a booking exists; `select_for_update().filter(..,
is_booked=False).first()` → 404 "no available time slot" when empty;
otherwise `BookingSerializer` saves one Booking for the found slot (its
one-to-one unique validator can only fire when a booking already references
the slot, which the tuple filter has already excluded) and the slot is saved
with `is_booked = True`.  Every failure leaves the database unchanged — the
transaction rolls back and no earlier branch writes. -/
def ReserveConsultantTimeView.post (db : DB) (pk : Nat) (userP : Param Nat)
    (dateP : Param Date) (stP etP : Param Time) : ReserveResp × DB :=
  if userP = .missing ∨ dateP = .missing ∨ stP = .missing ∨ etP = .missing then
    (.missingFields, db)
  else if pk ∉ db.consultants then
    (.consultantNotFound, db)
  else
    match userP with
    | .malformed => (.internalError, db)
    | .missing => (.missingFields, db)
    | .ok uid =>
      if uid ∉ db.users then
        (.userNotFound, db)
      else
        match dateP, stP, etP with
        | .ok d, .ok st, .ok et =>
          if db.bookings.any (bookingMatchesSlot db pk d st et) then
            (.alreadyBooked, db)
          else
            match db.availabilities.find? (fun a =>
                availMatches pk d st et a && a.is_booked == false) with
            | none => (.noSlot, db)
            | some slot =>
              if db.bookings.any (fun b => b.availability == slot.id) then
                (.serializerErrors, db)
              else
                (.created (freshId (db.bookings.map (·.id))),
                  { db with
                    bookings := db.bookings ++
                      [{ id := freshId (db.bookings.map (·.id)),
                         availability := slot.id, user := uid }],
                    availabilities := db.availabilities.map fun a =>
                      if a.id == slot.id then { a with is_booked := true } else a })
        | _, _, _ => (.internalError, db)

/-- Results of `ConsultantDeleteAvailability.delete` (views.py:293-318). -/
inductive DeleteResp where
  | deleted
  | notFound
  | internalError
deriving DecidableEq, Repr

def DeleteResp.status : DeleteResp → Nat
  | .deleted => 204
  | .notFound => 404
  | .internalError => 500

/-- View `ConsultantDeleteAvailability.delete` (views.py:293-318).
`Availability.objects.get(...)` raises `DoesNotExist` (no match) → 404 and
`MultipleObjectsReturned` (several matches) → generic except → 500; on
exactly one match the row is deleted unconditionally (no `is_booked` check)
and the `on_delete=CASCADE` of `Booking.availability` removes any booking
referencing it. -/
def ConsultantDeleteAvailability.delete (db : DB) (pk : Nat) (d : Date)
    (st et : Time) : DeleteResp × DB :=
  match db.availabilities.filter (availMatches pk d st et) with
  | [] => (.notFound, db)
  | [a] =>
    (.deleted,
      { db with
        availabilities := db.availabilities.filter fun r => r.id != a.id,
        bookings := db.bookings.filter fun b => b.availability != a.id })
  | _ => (.internalError, db)

/-- Results of `RecurringAvailabilityView.post` (views.py:417-438). -/
inductive RecurringResp where
  | created
  | serializerErrors
deriving DecidableEq, Repr

def RecurringResp.status : RecurringResp → Nat
  | .created => 201
  | .serializerErrors => 400

/-- View `RecurringAvailabilityView.post` (views.py:417-438).
`RecurringAvailabilitySerializer` validates: the consultant FK resolves, the
two times parse, and `day_of_week` is one of the model's choices 0..6 (a
missing or non-integral value also fails the choice field) → otherwise 400
with `serializer.errors`.  No `start_time < end_time` check exists.  The
saved row takes the model default `is_active = True`. -/
def RecurringAvailabilityView.post (db : DB) (pk : Nat) (dowP : Param Int)
    (stP etP : Param Time) : RecurringResp × DB :=
  match dowP, stP, etP with
  | .ok dow, .ok st, .ok et =>
    if pk ∈ db.consultants ∧ 0 ≤ dow ∧ dow ≤ 6 then
      (.created,
        { db with recurrings := db.recurrings ++
            [{ id := freshId (db.recurrings.map (·.id)),
               consultant := pk, day_of_week := dow,
               start_time := st, end_time := et, is_active := true }] })
    else (.serializerErrors, db)
  | _, _, _ => (.serializerErrors, db)

/-- View `RecurringAvailabilityView.get` (views.py:440-446): active templates of
one consultant, no ordering. -/
def RecurringAvailabilityView.get (db : DB) (pk : Nat) :
    List RecurringAvailability :=
  db.recurrings.filter fun r => r.consultant == pk && r.is_active

/-! ### Concurrency model for Reserve

`select_for_update()` inside `transaction.atomic()` serializes, per
Availability row, the locked section of every Reserve call racing on that
row: the lock is held from the row read to commit, so the locked sections
execute in some linear order, and each sees the committed effects of all
earlier ones.  The unlocked Booking existence check at the top of the
transaction, however, may read an older committed state.  For calls that all
target one tuple we therefore project the database onto that row: a
`SlotState` records the row's `is_booked` flag and whether a Booking
references it.  An execution is a list of calls in locked-section order;
call `i` carries the index `k` of the committed state its Booking check read
(`k` beyond the history reads the newest state; earlier indices model stale
reads).  A call whose check sees a booking answers 400 "already booked"
without entering the locked section; a call whose locked read finds the row
booked answers 404 "no available time slot"; otherwise the call creates the
booking and sets `is_booked`, committing before the next locked section. -/

/-- Projection of the database onto one Availability row. -/
structure SlotState where
  is_booked : Bool
  has_booking : Bool
deriving DecidableEq, Repr

/-- The row before any Reserve succeeded. -/
def SlotState.free : SlotState := ⟨false, false⟩

/-- The row after a Reserve succeeded: booked, with one Booking. -/
def SlotState.taken : SlotState := ⟨true, true⟩

/-- Outcome of one Reserve call in the projected model. -/
inductive ReserveOutcome where
  | success
  | conflict
  | notFound
deriving DecidableEq, Repr

/-- Run the calls in locked-section order.  `hist` lists the committed
states so far (oldest first), `cur` is the newest committed state, and each
call's entry in `ks` is the history index its unlocked Booking check read. -/
def execReserve (hist : List SlotState) (cur : SlotState) :
    List Nat → List ReserveOutcome × SlotState
  | [] => ([], cur)
  | k :: ks =>
    let sCheck := hist.getD k cur
    if sCheck.has_booking then
      let rest := execReserve (hist ++ [cur]) cur ks
      (ReserveOutcome.conflict :: rest.1, rest.2)
    else if cur.is_booked then
      let rest := execReserve (hist ++ [cur]) cur ks
      (ReserveOutcome.notFound :: rest.1, rest.2)
    else
      let rest := execReserve (hist ++ [cur]) SlotState.taken ks
      (ReserveOutcome.success :: rest.1, rest.2)

/-- Once the row is booked, no later call succeeds — whichever committed
state its unlocked check read — and the state never changes again. -/
theorem execReserve_booked (ks : List Nat) :
    ∀ (hist : List SlotState) (cur : SlotState), cur.is_booked = true →
      (execReserve hist cur ks).1.count ReserveOutcome.success = 0 ∧
        (execReserve hist cur ks).2 = cur := by
  induction ks with
  | nil => intro hist cur _; simp [execReserve]
  | cons k ks ih =>
    intro hist cur h
    have ihh := ih (hist ++ [cur]) cur h
    unfold execReserve
    by_cases hb : (hist.getD k cur).has_booking = true
    · rw [if_pos hb]
      simpa [List.count_cons] using ihh
    · rw [if_neg hb, if_pos h]
      simpa [List.count_cons] using ihh

/-- C1: for one Availability row that starts free, across all concurrent
Reserve calls targeting its (consultant, date, start_time, end_time) — any
locked-section order, each unlocked Booking check reading any committed
state — exactly one call succeeds and creates a Booking (so in particular at
most one), every other call ends in the Conflict ("already booked") or
NotFound ("no available time slot") error, and the row's final `is_booked`
is true. -/
theorem reserve_at_most_once_concurrent (ks : List Nat) (h : ks ≠ []) :
    (execReserve [] SlotState.free ks).1.count ReserveOutcome.success = 1 ∧
      (∀ o ∈ (execReserve [] SlotState.free ks).1,
        o ≠ ReserveOutcome.success →
          o = ReserveOutcome.conflict ∨ o = ReserveOutcome.notFound) ∧
      (execReserve [] SlotState.free ks).2.is_booked = true := by
  match ks with
  | [] => exact absurd rfl h
  | k :: ks =>
    have hb := execReserve_booked ks ([] ++ [SlotState.free]) SlotState.taken rfl
    unfold execReserve
    have h1 : (([] : List SlotState).getD k SlotState.free).has_booking ≠ true := by
      simp [List.getD, SlotState.free]
    rw [if_neg h1]
    have h2 : SlotState.free.is_booked ≠ true := by
      simp [SlotState.free]
    rw [if_neg h2]
    refine ⟨?_, ?_, ?_⟩
    · simpa [List.count_cons] using hb.1
    · intro o _ ho
      cases o with
      | success => exact absurd rfl ho
      | conflict => exact Or.inl rfl
      | notFound => exact Or.inr rfl
    · simpa using congrArg SlotState.is_booked hb.2

/-- C1 at a concrete race of three calls: the second call's check reads the
initial state (index 0, a stale read) and the third reads the winner's
commit (index 1). -/
theorem reserve_at_most_once_concurrent_witness :
    (execReserve [] SlotState.free [2, 0, 1]).1.count ReserveOutcome.success = 1 ∧
      (∀ o ∈ (execReserve [] SlotState.free [2, 0, 1]).1,
        o ≠ ReserveOutcome.success →
          o = ReserveOutcome.conflict ∨ o = ReserveOutcome.notFound) ∧
      (execReserve [] SlotState.free [2, 0, 1]).2.is_booked = true :=
  reserve_at_most_once_concurrent [2, 0, 1] (by decide)

/-- C2: Reserve is atomic.  When it answers 201 it has appended exactly
one Booking, referencing an Availability row that matched the requested
tuple and was unbooked, and has set exactly that row's `is_booked` to true,
all in one step of the transition function (one transaction); when it
answers anything else the database is unchanged — no Booking is created and
every row's `is_booked` keeps its value. -/
theorem reserve_atomic (db : DB) (pk : Nat) (userP : Param Nat)
    (dateP : Param Date) (stP etP : Param Time) :
    (∀ bid db2,
      ReserveConsultantTimeView.post db pk userP dateP stP etP =
          (ReserveResp.created bid, db2) →
        ∃ uid d st et slot,
          userP = Param.ok uid ∧ dateP = Param.ok d ∧
          stP = Param.ok st ∧ etP = Param.ok et ∧
          slot ∈ db.availabilities ∧ availMatches pk d st et slot = true ∧
          slot.is_booked = false ∧
          db2.bookings = db.bookings ++
            [{ id := bid, availability := slot.id, user := uid }] ∧
          db2.availabilities = db.availabilities.map (fun a =>
            if a.id == slot.id then { a with is_booked := true } else a) ∧
          db2.users = db.users ∧ db2.consultants = db.consultants ∧
          db2.recurrings = db.recurrings) ∧
    (∀ r db2,
      ReserveConsultantTimeView.post db pk userP dateP stP etP = (r, db2) →
        r.isCreated = false → db2 = db) := by
  constructor
  · intro bid db2 hres
    unfold ReserveConsultantTimeView.post at hres
    split at hres
    · simp at hres
    split at hres
    · simp at hres
    split at hres
    · simp at hres
    · simp at hres
    split at hres
    · simp at hres
    split at hres
    · split at hres
      · simp at hres
      split at hres
      · simp at hres
      split at hres
      · simp at hres
      · rename_i uid husers dP sP eP d st et hmiss hbook x slot hfind huni
        rw [Prod.mk.injEq] at hres
        obtain ⟨h1, h2⟩ := hres
        injection h1 with h1
        subst h1; subst h2
        have hmem := List.mem_of_find?_eq_some hfind
        have hp := List.find?_some hfind
        rw [Bool.and_eq_true] at hp
        refine ⟨uid, d, st, et, slot, rfl, rfl, rfl, rfl, hmem, hp.1, ?_,
          rfl, rfl, rfl, rfl, rfl⟩
        simpa using hp.2
    · simp at hres
  · intro r db2 hres hnc
    unfold ReserveConsultantTimeView.post at hres
    repeat' split at hres
    all_goals rw [Prod.mk.injEq] at hres
    all_goals obtain ⟨h1, h2⟩ := hres
    all_goals first
      | exact h2.symm
      | (subst h1; simp [ReserveResp.isCreated] at hnc)

/-- A concrete free slot: consultant 1, 2026-10-20, 09:00-10:00. -/
def slotW : Availability :=
  ⟨3, 1, ⟨9, 0, 0⟩, ⟨10, 0, 0⟩, ⟨2026, 10, 20⟩, false⟩

/-- A concrete database: user 7, consultant 1, the one free slot `slotW`. -/
def dbW : DB := ⟨[7], [1], [slotW], [], []⟩

/-- State of `dbW` after user 7 reserved `slotW`: the slot is booked and booking 0
references it. -/
def dbW2 : DB := ⟨[7], [1], [{ slotW with is_booked := true }], [], [⟨0, 3, 7⟩]⟩

/-- C2 at the concrete database `dbW`: reserving `slotW` answers 201 with
booking id 0 and the next state `dbW2`, so the atomicity theorem applies and
exhibits the matched slot. -/
theorem reserve_atomic_witness :
    ∃ uid d st et slot,
      Param.ok 7 = Param.ok uid ∧
      Param.ok (Date.mk 2026 10 20) = Param.ok d ∧
      Param.ok (Time.mk 9 0 0) = Param.ok st ∧
      Param.ok (Time.mk 10 0 0) = Param.ok et ∧
      slot ∈ dbW.availabilities ∧
      availMatches 1 d st et slot = true ∧ slot.is_booked = false ∧
      dbW2.bookings = dbW.bookings ++
        [{ id := 0, availability := slot.id, user := uid }] := by
  obtain ⟨uid, d, st, et, slot, h1, h2, h3, h4, h5, h6, h7, h8, _⟩ :=
    (reserve_atomic dbW 1 (Param.ok 7) (Param.ok (Date.mk 2026 10 20))
      (Param.ok (Time.mk 9 0 0)) (Param.ok (Time.mk 10 0 0))).1 0 dbW2
      (by decide)
  exact ⟨uid, d, st, et, slot, h1, h2, h3, h4, h5, h6, h7, h8⟩

/-- C3: with valid consultant, user and fields, Reserve distinguishes its
two failure modes: when a Booking row exists for the requested (consultant,
date, start_time, end_time) tuple it answers the Conflict error ("slot
already booked", HTTP 400); when no such Booking exists and no unbooked
Availability matches the tuple it answers NotFound ("no available time
slot", HTTP 404). -/
theorem reserve_failure_modes (db : DB) (pk uid : Nat) (d : Date)
    (st et : Time) (hc : pk ∈ db.consultants) (hu : uid ∈ db.users) :
    ((∃ b ∈ db.bookings, bookingMatchesSlot db pk d st et b = true) →
      ReserveConsultantTimeView.post db pk (Param.ok uid) (Param.ok d)
          (Param.ok st) (Param.ok et) =
        (ReserveResp.alreadyBooked, db) ∧
      ReserveResp.alreadyBooked.status = 400) ∧
    ((∀ b ∈ db.bookings, bookingMatchesSlot db pk d st et b = false) →
      (∀ a ∈ db.availabilities, availMatches pk d st et a = true →
        a.is_booked = true) →
      ReserveConsultantTimeView.post db pk (Param.ok uid) (Param.ok d)
          (Param.ok st) (Param.ok et) =
        (ReserveResp.noSlot, db) ∧
      ReserveResp.noSlot.status = 404) := by
  constructor
  · intro hb
    have hany : db.bookings.any (bookingMatchesSlot db pk d st et) = true := by
      obtain ⟨b, hbm, hbt⟩ := hb
      exact List.any_eq_true.mpr ⟨b, hbm, hbt⟩
    refine ⟨?_, rfl⟩
    simp [ReserveConsultantTimeView.post, hc, hu, hany]
  · intro hnb hno
    have hany : db.bookings.any (bookingMatchesSlot db pk d st et) = false := by
      rw [List.any_eq_false]
      intro b hbm
      simp [hnb b hbm]
    have hfind : db.availabilities.find? (fun a =>
        availMatches pk d st et a && !a.is_booked) = none := by
      rw [List.find?_eq_none]
      intro a ha
      rw [Bool.and_eq_true]
      rintro ⟨hm, hbk⟩
      rw [hno a ha hm] at hbk
      simp at hbk
    refine ⟨?_, rfl⟩
    simp [ReserveConsultantTimeView.post, hc, hu, hany, hfind]

/-- C3 at concrete databases: on `dbW2` (slot booked, booking present) the
same tuple answers 400 "already booked"; on `dbW` a tuple with a different
date answers 404 "no available time slot". -/
theorem reserve_failure_modes_witness :
    (ReserveConsultantTimeView.post dbW2 1 (Param.ok 7)
        (Param.ok (Date.mk 2026 10 20)) (Param.ok (Time.mk 9 0 0))
        (Param.ok (Time.mk 10 0 0)) =
      (ReserveResp.alreadyBooked, dbW2) ∧
      ReserveResp.alreadyBooked.status = 400) ∧
    (ReserveConsultantTimeView.post dbW 1 (Param.ok 7)
        (Param.ok (Date.mk 2026 10 21)) (Param.ok (Time.mk 9 0 0))
        (Param.ok (Time.mk 10 0 0)) =
      (ReserveResp.noSlot, dbW) ∧ ReserveResp.noSlot.status = 404) := by
  constructor
  · exact (reserve_failure_modes dbW2 1 7 (Date.mk 2026 10 20)
      (Time.mk 9 0 0) (Time.mk 10 0 0) (by decide) (by decide)).1 (by decide)
  · exact (reserve_failure_modes dbW 1 7 (Date.mk 2026 10 21)
      (Time.mk 9 0 0) (Time.mk 10 0 0) (by decide) (by decide)).2
      (by decide) (by decide)

/-- C4 counterexample: the claim "Create Availability fails
InvalidArgument (HTTP 400) whenever ... start_time >= end_time, or any of
the date/time fields is unparsable" is false on the code.  With consultant
1, a future date and start_time 10:00 >= end_time 09:00 the view answers
201 and persists the reversed slot; and with an unparsable date it answers
500 (the `None <= date` comparison raises and the generic handler replies),
not 400. -/
theorem create_availability_counterexample :
    ((ConsultantAvailableTimeCreateView.post dbW (Date.mk 2026 10 12) 1
        (Param.ok (Date.mk 2026 10 20)) (Param.ok (Time.mk 10 0 0))
        (Param.ok (Time.mk 9 0 0))).1 = CreateAvailabilityResp.created ∧
      (ConsultantAvailableTimeCreateView.post dbW (Date.mk 2026 10 12) 1
        (Param.ok (Date.mk 2026 10 20)) (Param.ok (Time.mk 10 0 0))
        (Param.ok (Time.mk 9 0 0))).1.status = 201 ∧
      (ConsultantAvailableTimeCreateView.post dbW (Date.mk 2026 10 12) 1
        (Param.ok (Date.mk 2026 10 20)) (Param.ok (Time.mk 10 0 0))
        (Param.ok (Time.mk 9 0 0))).2.availabilities =
        dbW.availabilities ++
          [⟨4, 1, ⟨10, 0, 0⟩, ⟨9, 0, 0⟩, ⟨2026, 10, 20⟩, false⟩]) ∧
    (ConsultantAvailableTimeCreateView.post dbW (Date.mk 2026 10 12) 1
      Param.malformed (Param.ok (Time.mk 9 0 0))
      (Param.ok (Time.mk 10 0 0))).1.status = 500 := by
  decide

/-- C4 (amended): Create Availability answers 400 when the parsed date
is not strictly after the current date, and 400 when a time field is
missing or unparsable; a missing or unparsable date, however, yields 500
(Internal), not 400; no `start_time >= end_time` check is performed — with a
valid consultant, a strictly future date and two parsed times it always
succeeds, whatever the times — and on success it appends exactly one new
Availability row, with `is_booked = false`. -/
theorem create_availability_spec (db : DB) (today : Date) (pk : Nat)
    (dateP : Param Date) (stP etP : Param Time) (hc : pk ∈ db.consultants) :
    (∀ d, dateP = Param.ok d → Date.le d today →
      ConsultantAvailableTimeCreateView.post db today pk dateP stP etP =
        (CreateAvailabilityResp.notFuture, db) ∧
      CreateAvailabilityResp.notFuture.status = 400) ∧
    (∀ d, dateP = Param.ok d → ¬Date.le d today →
      (stP = Param.missing ∨ stP = Param.malformed ∨
        etP = Param.missing ∨ etP = Param.malformed) →
      ConsultantAvailableTimeCreateView.post db today pk dateP stP etP =
        (CreateAvailabilityResp.serializerErrors, db) ∧
      CreateAvailabilityResp.serializerErrors.status = 400) ∧
    ((dateP = Param.missing ∨ dateP = Param.malformed) →
      ConsultantAvailableTimeCreateView.post db today pk dateP stP etP =
        (CreateAvailabilityResp.internalError, db) ∧
      CreateAvailabilityResp.internalError.status = 500) ∧
    (∀ d st et, dateP = Param.ok d → ¬Date.le d today →
      stP = Param.ok st → etP = Param.ok et →
      ConsultantAvailableTimeCreateView.post db today pk dateP stP etP =
        (CreateAvailabilityResp.created,
          { db with availabilities := db.availabilities ++
              [{ id := freshId (db.availabilities.map (·.id)),
                 consultant := pk, start_time := st, end_time := et,
                 date := d, is_booked := false }] })) := by
  refine ⟨?_, ?_, ?_, ?_⟩
  · intro d hd hle
    subst hd
    exact ⟨by simp [ConsultantAvailableTimeCreateView.post, hc, hle], rfl⟩
  · intro d hd hnle hbad
    subst hd
    cases stP <;> cases etP <;>
      first
        | (refine ⟨?_, rfl⟩
           simp [ConsultantAvailableTimeCreateView.post, hc, hnle]
           done)
        | (rcases hbad with h | h | h | h <;> exact Param.noConfusion h)
  · rintro (hd | hd) <;> subst hd <;>
      exact ⟨by simp [ConsultantAvailableTimeCreateView.post, hc], rfl⟩
  · intro d st et hd hnle hst het
    subst hd; subst hst; subst het
    simp [ConsultantAvailableTimeCreateView.post, hc, hnle]

/-- C4 (amended) at concrete inputs: today's date is rejected with 400, a
bad date yields 500, and reversed times (10:00 >= 09:00) still create the
row. -/
theorem create_availability_spec_witness :
    (ConsultantAvailableTimeCreateView.post dbW (Date.mk 2026 10 12) 1
        (Param.ok (Date.mk 2026 10 12)) (Param.ok (Time.mk 9 0 0))
        (Param.ok (Time.mk 10 0 0)) =
      (CreateAvailabilityResp.notFuture, dbW) ∧
      CreateAvailabilityResp.notFuture.status = 400) ∧
    (ConsultantAvailableTimeCreateView.post dbW (Date.mk 2026 10 12) 1
        Param.malformed (Param.ok (Time.mk 9 0 0))
        (Param.ok (Time.mk 10 0 0)) =
      (CreateAvailabilityResp.internalError, dbW) ∧
      CreateAvailabilityResp.internalError.status = 500) ∧
    ConsultantAvailableTimeCreateView.post dbW (Date.mk 2026 10 12) 1
        (Param.ok (Date.mk 2026 10 20)) (Param.ok (Time.mk 10 0 0))
        (Param.ok (Time.mk 9 0 0)) =
      (CreateAvailabilityResp.created,
        { dbW with availabilities := dbW.availabilities ++
            [{ id := freshId (dbW.availabilities.map (·.id)),
               consultant := 1, start_time := Time.mk 10 0 0,
               end_time := Time.mk 9 0 0, date := Date.mk 2026 10 20,
               is_booked := false }] }) := by
  refine ⟨?_, ?_, ?_⟩
  · exact (create_availability_spec dbW (Date.mk 2026 10 12) 1
      (Param.ok (Date.mk 2026 10 12)) (Param.ok (Time.mk 9 0 0))
      (Param.ok (Time.mk 10 0 0)) (by decide)).1 (Date.mk 2026 10 12) rfl
      (by decide)
  · exact (create_availability_spec dbW (Date.mk 2026 10 12) 1
      Param.malformed (Param.ok (Time.mk 9 0 0))
      (Param.ok (Time.mk 10 0 0)) (by decide)).2.2.1 (Or.inr rfl)
  · exact (create_availability_spec dbW (Date.mk 2026 10 12) 1
      (Param.ok (Date.mk 2026 10 20)) (Param.ok (Time.mk 10 0 0))
      (Param.ok (Time.mk 9 0 0)) (by decide)).2.2.2 (Date.mk 2026 10 20)
      (Time.mk 10 0 0) (Time.mk 9 0 0) rfl (by decide) rfl rfl

/-- Rows surviving a filter whose last conjunct is `is_booked == false` are
unbooked, also after sorting. -/
theorem mem_sort_filter_unbooked (r : Availability → Availability → Prop)
    [DecidableRel r] (q : Availability → Bool) (l out : List Availability)
    (h : List.insertionSort r
      (l.filter fun a => q a && a.is_booked == false) = out) :
    ∀ a ∈ out, a.is_booked = false := by
  intro a ha
  rw [← h, List.mem_insertionSort] at ha
  have hp := (List.mem_filter.mp ha).2
  rw [Bool.and_eq_true] at hp
  simpa using hp.2

/-- C5: every availability query returns only rows with
`is_booked = false`; the by-consultant query is sorted ascending by
(date, start_time) and the by-single-date query ascending by start_time
only. -/
theorem availability_queries_unbooked_sorted (db : DB) (pk : Nat)
    (today dd : Date) (m y : Int) (sd ed : Date) (st et : Time)
    (lc ld lm lt : List Availability)
    (hcq : ConsultantGetAvailability.get db pk = Except.ok lc)
    (hdq : DailyAvailabilityView.get db today (Param.ok dd) = Except.ok ld)
    (hmq : MonthlyAvailabilityView.get db (Param.ok m) (Param.ok y) =
      Except.ok lm)
    (htq : TimeRangeAvailabilityView.get db (Param.ok sd) (Param.ok ed)
      (Param.ok st) (Param.ok et) = Except.ok lt) :
    (∀ a ∈ lc, a.is_booked = false) ∧ List.Sorted rowLe lc ∧
    (∀ a ∈ ld, a.is_booked = false) ∧ List.Sorted startLe ld ∧
    (∀ a ∈ lm, a.is_booked = false) ∧
    (∀ a ∈ lt, a.is_booked = false) := by
  unfold ConsultantGetAvailability.get at hcq
  split at hcq
  case isFalse => exact Except.noConfusion hcq
  injection hcq with hlc
  simp only [DailyAvailabilityView.get] at hdq
  split at hdq
  case isTrue => exact Except.noConfusion hdq
  injection hdq with hld
  simp only [MonthlyAvailabilityView.get] at hmq
  split at hmq
  case isFalse => exact Except.noConfusion hmq
  split at hmq
  case isFalse => exact Except.noConfusion hmq
  injection hmq with hlm
  have htq2 : List.insertionSort rowLe (db.availabilities.filter fun a =>
      (decide (Date.le sd a.date) && decide (Date.le a.date ed) &&
        decide (Time.le st a.start_time) && decide (Time.le a.end_time et)) &&
        a.is_booked == false) = lt := by
    unfold TimeRangeAvailabilityView.get at htq
    rw [if_neg (by simp)] at htq
    exact Except.ok.inj htq
  refine ⟨?_, ?_, ?_, ?_, ?_, ?_⟩
  · exact mem_sort_filter_unbooked rowLe (fun a => a.consultant == pk)
      db.availabilities lc hlc
  · rw [← hlc]; exact List.sorted_insertionSort rowLe _
  · exact mem_sort_filter_unbooked startLe (fun a => a.date == dd)
      db.availabilities ld hld
  · rw [← hld]; exact List.sorted_insertionSort startLe _
  · exact mem_sort_filter_unbooked rowLe
      (fun a => decide (Date.le ⟨y, m.toNat, 1⟩ a.date) &&
        decide (Date.le a.date ⟨y, m.toNat, daysInMonth y m.toNat⟩))
      db.availabilities lm hlm
  · exact mem_sort_filter_unbooked rowLe
      (fun a => decide (Date.le sd a.date) && decide (Date.le a.date ed) &&
        decide (Time.le st a.start_time) && decide (Time.le a.end_time et))
      db.availabilities lt htq2

/-- A second free slot of consultant 1, one day later but earlier in the
day, to make the (date, start_time) order visible. -/
def slotV : Availability :=
  ⟨5, 1, ⟨8, 0, 0⟩, ⟨8, 30, 0⟩, ⟨2026, 10, 21⟩, false⟩

/-- A booked slot of consultant 2 on 2026-10-20. -/
def slotB : Availability :=
  ⟨6, 2, ⟨7, 0, 0⟩, ⟨7, 30, 0⟩, ⟨2026, 10, 20⟩, true⟩

/-- Database for the query witnesses: two consultants, three slots, one of
them booked. -/
def dbQ : DB := ⟨[7], [1, 2], [slotV, slotW, slotB], [], []⟩

/-- C5 at `dbQ`: the four queries succeed, return no booked row, and the
by-consultant result is (date, start_time)-sorted while the by-date result
is start_time-sorted. -/
theorem availability_queries_unbooked_sorted_witness :
    (∀ a ∈ [slotW, slotV], a.is_booked = false) ∧
      List.Sorted rowLe [slotW, slotV] ∧
      (∀ a ∈ [slotW], a.is_booked = false) ∧
      List.Sorted startLe [slotW] ∧
      (∀ a ∈ [slotW, slotV], a.is_booked = false) ∧
      (∀ a ∈ [slotW, slotV], a.is_booked = false) :=
  availability_queries_unbooked_sorted dbQ 1 (Date.mk 2026 10 12)
    (Date.mk 2026 10 20) 10 2026 (Date.mk 2026 10 19) (Date.mk 2026 10 21)
    (Time.mk 7 0 0) (Time.mk 10 30 0) [slotW, slotV] [slotW]
    [slotW, slotV] [slotW, slotV] rfl rfl rfl rfl

/-- C6: the date+time range query needs all four parameters and answers
InvalidArgument (400) when any is missing or unparsable; on success it
returns exactly the unbooked slots whose date lies in [start_date, end_date]
and whose start_time is at least the query's start_time and end_time at most
the query's end_time — full containment, not mere overlap. -/
theorem timerange_spec (db : DB) (sdP edP : Param Date)
    (stP etP : Param Time) :
    ((sdP = Param.missing ∨ edP = Param.missing ∨ stP = Param.missing ∨
        etP = Param.missing ∨ sdP = Param.malformed ∨ edP = Param.malformed ∨
        stP = Param.malformed ∨ etP = Param.malformed) →
      TimeRangeAvailabilityView.get db sdP edP stP etP =
        Except.error ApiError.invalidArgument ∧
      ApiError.invalidArgument.status = 400) ∧
    (∀ sd ed st et lt, sdP = Param.ok sd → edP = Param.ok ed →
      stP = Param.ok st → etP = Param.ok et →
      TimeRangeAvailabilityView.get db sdP edP stP etP = Except.ok lt →
      ∀ a, a ∈ lt ↔ a ∈ db.availabilities ∧ Date.le sd a.date ∧
        Date.le a.date ed ∧ Time.le st a.start_time ∧
        Time.le a.end_time et ∧ a.is_booked = false) := by
  constructor
  · intro hbad
    refine ⟨?_, rfl⟩
    cases sdP <;> cases edP <;> cases stP <;> cases etP <;>
      first
        | (simp [TimeRangeAvailabilityView.get]
           done)
        | (rcases hbad with h | h | h | h | h | h | h | h <;>
            exact Param.noConfusion h)
  · intro sd ed st et lt hsd hed hst het hres
    subst hsd; subst hed; subst hst; subst het
    unfold TimeRangeAvailabilityView.get at hres
    rw [if_neg (by simp)] at hres
    have hlt := Except.ok.inj hres
    intro a
    rw [← hlt]
    simp only [List.mem_insertionSort, List.mem_filter, Bool.and_eq_true,
      decide_eq_true_eq, beq_iff_eq]
    constructor
    · rintro ⟨hm, ⟨⟨⟨h1, h2⟩, h3⟩, h4⟩, h5⟩
      exact ⟨hm, h1, h2, h3, h4, h5⟩
    · rintro ⟨hm, h1, h2, h3, h4, h5⟩
      exact ⟨hm, ⟨⟨⟨h1, h2⟩, h3⟩, h4⟩, h5⟩

/-- C6 at `dbQ`: a missing start_date is rejected with 400, and on the
successful query [2026-10-19, 2026-10-21] x [07:00, 10:30] the slot
09:00-10:00 is a member because it is fully contained. -/
theorem timerange_spec_witness :
    (TimeRangeAvailabilityView.get dbQ Param.missing
        (Param.ok (Date.mk 2026 10 21)) (Param.ok (Time.mk 7 0 0))
        (Param.ok (Time.mk 10 30 0)) =
      Except.error ApiError.invalidArgument ∧
      ApiError.invalidArgument.status = 400) ∧
    (slotW ∈ [slotW, slotV] ↔ slotW ∈ dbQ.availabilities ∧
      Date.le (Date.mk 2026 10 19) slotW.date ∧
      Date.le slotW.date (Date.mk 2026 10 21) ∧
      Time.le (Time.mk 7 0 0) slotW.start_time ∧
      Time.le slotW.end_time (Time.mk 10 30 0) ∧ slotW.is_booked = false) := by
  constructor
  · exact (timerange_spec dbQ Param.missing (Param.ok (Date.mk 2026 10 21))
      (Param.ok (Time.mk 7 0 0)) (Param.ok (Time.mk 10 30 0))).1 (Or.inl rfl)
  · exact (timerange_spec dbQ (Param.ok (Date.mk 2026 10 19))
      (Param.ok (Date.mk 2026 10 21)) (Param.ok (Time.mk 7 0 0))
      (Param.ok (Time.mk 10 30 0))).2 (Date.mk 2026 10 19)
      (Date.mk 2026 10 21) (Time.mk 7 0 0) (Time.mk 10 30 0)
      [slotW, slotV] rfl rfl rfl rfl rfl slotW

/-- C7: the monthly query answers InvalidArgument (400) when month or
year is missing or non-integral, or when the month lies outside [1, 12]; on
success it returns exactly the unbooked slots whose date lies between the
month's first and last calendar day (inclusive), and for valid calendar
dates that range contains precisely the dates of that month — the last day
coming from the leap-year-aware `daysInMonth`. -/
theorem monthly_spec (db : DB) (monthP yearP : Param Int) :
    ((monthP = Param.missing ∨ monthP = Param.malformed ∨
        yearP = Param.missing ∨ yearP = Param.malformed) →
      MonthlyAvailabilityView.get db monthP yearP =
        Except.error ApiError.invalidArgument ∧
      ApiError.invalidArgument.status = 400) ∧
    (∀ m, monthP = Param.ok m → ¬(1 ≤ m ∧ m ≤ 12) →
      MonthlyAvailabilityView.get db monthP yearP =
        Except.error ApiError.invalidArgument) ∧
    (∀ m y lm, monthP = Param.ok m → yearP = Param.ok y →
      MonthlyAvailabilityView.get db monthP yearP = Except.ok lm →
      (∀ a, a ∈ lm ↔ a ∈ db.availabilities ∧
        Date.le (Date.mk y m.toNat 1) a.date ∧
        Date.le a.date (Date.mk y m.toNat (daysInMonth y m.toNat)) ∧
        a.is_booked = false) ∧
      (∀ d : Date, d.valid →
        (Date.le (Date.mk y m.toNat 1) d ∧
            Date.le d (Date.mk y m.toNat (daysInMonth y m.toNat)) ↔
          d.year = y ∧ d.month = m.toNat))) := by
  refine ⟨?_, ?_, ?_⟩
  · intro hbad
    refine ⟨?_, rfl⟩
    cases monthP <;> cases yearP <;>
      first
        | (simp [MonthlyAvailabilityView.get]
           done)
        | (rcases hbad with h | h | h | h <;> exact Param.noConfusion h)
  · intro m hm hnot
    subst hm
    cases yearP <;> simp [MonthlyAvailabilityView.get, hnot]
  · intro m y lm hm hy hres
    subst hm; subst hy
    simp only [MonthlyAvailabilityView.get] at hres
    split at hres
    case isFalse => exact Except.noConfusion hres
    split at hres
    case isFalse => exact Except.noConfusion hres
    have hlm := Except.ok.inj hres
    constructor
    · intro a
      rw [← hlm]
      simp only [List.mem_insertionSort, List.mem_filter, Bool.and_eq_true,
        decide_eq_true_eq, beq_iff_eq]
      constructor
      · rintro ⟨hmem, ⟨h1, h2⟩, h3⟩
        exact ⟨hmem, h1, h2, h3⟩
      · rintro ⟨hmem, h1, h2, h3⟩
        exact ⟨hmem, ⟨h1, h2⟩, h3⟩
    · intro d hval
      unfold Date.valid at hval
      obtain ⟨_, _, _, _, hd1, hd2⟩ := hval
      constructor
      · rintro ⟨h1, h2⟩
        unfold Date.le at h1 h2
        dsimp only at h1 h2
        exact ⟨by omega, by omega⟩
      · rintro ⟨hy2, hm2⟩
        rw [← hy2, ← hm2]
        unfold Date.le
        dsimp only
        omega

/-- C7 at concrete inputs: a missing month is rejected with 400; the October
2026 query on `dbQ` contains the open slot of 2026-10-20; and for February
2024 (a leap year) the computed range contains 2024-02-29 but not
2024-03-01. -/
theorem monthly_spec_witness :
    (MonthlyAvailabilityView.get dbQ Param.missing (Param.ok 2026) =
        Except.error ApiError.invalidArgument ∧
      ApiError.invalidArgument.status = 400) ∧
    (slotW ∈ [slotW, slotV] ↔ slotW ∈ dbQ.availabilities ∧
      Date.le (Date.mk 2026 10 1) slotW.date ∧
      Date.le slotW.date (Date.mk 2026 10 (daysInMonth 2026 10)) ∧
      slotW.is_booked = false) ∧
    (Date.le (Date.mk 2024 2 1) (Date.mk 2024 2 29) ∧
      Date.le (Date.mk 2024 2 29) (Date.mk 2024 2 (daysInMonth 2024 2))) ∧
    ¬(Date.le (Date.mk 2024 2 1) (Date.mk 2024 3 1) ∧
      Date.le (Date.mk 2024 3 1) (Date.mk 2024 2 (daysInMonth 2024 2))) := by
  refine ⟨?_, ?_, ?_, ?_⟩
  · exact (monthly_spec dbQ Param.missing (Param.ok 2026)).1 (Or.inl rfl)
  · exact ((monthly_spec dbQ (Param.ok 10) (Param.ok 2026)).2.2 10 2026
      [slotW, slotV] rfl rfl rfl).1 slotW
  · exact (((monthly_spec dbQ (Param.ok 2) (Param.ok 2024)).2.2 2 2024 []
      rfl rfl rfl).2 (Date.mk 2024 2 29) (by decide)).mpr ⟨rfl, rfl⟩
  · intro hr
    have h := (((monthly_spec dbQ (Param.ok 2) (Param.ok 2024)).2.2 2 2024 []
      rfl rfl rfl).2 (Date.mk 2024 3 1) (by decide)).mp hr
    exact absurd h.2 (by decide)

/-- C8: Delete Availability answers NotFound (404) when no row matches
the exact (consultant, date, start_time, end_time) tuple; when exactly one
row matches it deletes that row unconditionally — the statement carries no
`is_booked` hypothesis, so a booked slot is deleted the same way — and every
Booking referencing the row is removed (the FK cascade). -/
theorem delete_availability_spec (db : DB) (pk : Nat) (d : Date)
    (st et : Time) :
    (db.availabilities.filter (availMatches pk d st et) = [] →
      ConsultantDeleteAvailability.delete db pk d st et =
        (DeleteResp.notFound, db) ∧
      DeleteResp.notFound.status = 404) ∧
    (∀ a, db.availabilities.filter (availMatches pk d st et) = [a] →
      ConsultantDeleteAvailability.delete db pk d st et =
        (DeleteResp.deleted,
          { db with
            availabilities := db.availabilities.filter fun r => r.id != a.id,
            bookings := db.bookings.filter fun b => b.availability != a.id }) ∧
      DeleteResp.deleted.status = 204) := by
  constructor
  · intro hfil
    unfold ConsultantDeleteAvailability.delete
    rw [hfil]
    exact ⟨rfl, rfl⟩
  · intro a hfil
    unfold ConsultantDeleteAvailability.delete
    rw [hfil]
    exact ⟨rfl, rfl⟩

/-- C8 at concrete databases: on `dbW` a tuple with no matching row answers
404 and on `dbW2` the unique matching row — which is booked and referenced
by booking 0 — is deleted together with its booking, answering 204. -/
theorem delete_availability_spec_witness :
    (ConsultantDeleteAvailability.delete dbW 1 (Date.mk 2026 10 21)
        (Time.mk 9 0 0) (Time.mk 10 0 0) = (DeleteResp.notFound, dbW) ∧
      DeleteResp.notFound.status = 404) ∧
    (ConsultantDeleteAvailability.delete dbW2 1 (Date.mk 2026 10 20)
        (Time.mk 9 0 0) (Time.mk 10 0 0) =
      (DeleteResp.deleted,
        { dbW2 with
          availabilities := dbW2.availabilities.filter
            fun r => r.id != ({ slotW with is_booked := true } : Availability).id,
          bookings := dbW2.bookings.filter
            fun b => b.availability !=
              ({ slotW with is_booked := true } : Availability).id }) ∧
      DeleteResp.deleted.status = 204) := by
  constructor
  · exact (delete_availability_spec dbW 1 (Date.mk 2026 10 21)
      (Time.mk 9 0 0) (Time.mk 10 0 0)).1 rfl
  · exact (delete_availability_spec dbW2 1 (Date.mk 2026 10 20)
      (Time.mk 9 0 0) (Time.mk 10 0 0)).2 { slotW with is_booked := true } rfl

/-- C9 counterexample: the claim "Create RecurringAvailability fails
InvalidArgument when ... start_time >= end_time" is false on the code: with
consultant 1, day_of_week 1 and start_time 10:00 >= end_time 09:00 the view
answers 201 and stores the template. -/
theorem recurring_create_counterexample :
    (RecurringAvailabilityView.post dbW 1 (Param.ok 1)
        (Param.ok (Time.mk 10 0 0)) (Param.ok (Time.mk 9 0 0))).1 =
      RecurringResp.created ∧
    (RecurringAvailabilityView.post dbW 1 (Param.ok 1)
        (Param.ok (Time.mk 10 0 0)) (Param.ok (Time.mk 9 0 0))).1.status =
      201 ∧
    (RecurringAvailabilityView.post dbW 1 (Param.ok 1)
        (Param.ok (Time.mk 10 0 0)) (Param.ok (Time.mk 9 0 0))).2.recurrings =
      [⟨0, 1, 1, ⟨10, 0, 0⟩, ⟨9, 0, 0⟩, true⟩] := by
  decide

/-- C9 (amended): Create RecurringAvailability fails InvalidArgument
(400) when day_of_week is missing, non-integral or outside [0, 6]; no
`start_time >= end_time` validation is performed — with a valid consultant,
a day_of_week in [0, 6] and two parsed times it always succeeds, whatever
the times — and the stored template has `is_active = true`. -/
theorem recurring_create_spec (db : DB) (pk : Nat) (dowP : Param Int)
    (stP etP : Param Time) (hc : pk ∈ db.consultants) :
    (∀ dow, dowP = Param.ok dow → ¬(0 ≤ dow ∧ dow ≤ 6) →
      RecurringAvailabilityView.post db pk dowP stP etP =
        (RecurringResp.serializerErrors, db) ∧
      RecurringResp.serializerErrors.status = 400) ∧
    ((dowP = Param.missing ∨ dowP = Param.malformed) →
      RecurringAvailabilityView.post db pk dowP stP etP =
        (RecurringResp.serializerErrors, db)) ∧
    (∀ dow st et, dowP = Param.ok dow → 0 ≤ dow → dow ≤ 6 →
      stP = Param.ok st → etP = Param.ok et →
      RecurringAvailabilityView.post db pk dowP stP etP =
        (RecurringResp.created,
          { db with recurrings := db.recurrings ++
              [{ id := freshId (db.recurrings.map (·.id)),
                 consultant := pk, day_of_week := dow,
                 start_time := st, end_time := et, is_active := true }] })) := by
  refine ⟨?_, ?_, ?_⟩
  · intro dow hdow hnot
    subst hdow
    refine ⟨?_, rfl⟩
    cases stP <;> cases etP <;>
      first
        | (simp [RecurringAvailabilityView.post]
           done)
        | (simp only [RecurringAvailabilityView.post]
           rw [if_neg (fun hcon => hnot ⟨hcon.2.1, hcon.2.2⟩)])
  · rintro (hdow | hdow) <;> subst hdow <;>
      cases stP <;> cases etP <;> simp [RecurringAvailabilityView.post]
  · intro dow st et hdow h0 h6 hst het
    subst hdow; subst hst; subst het
    simp [RecurringAvailabilityView.post, hc, h0, h6]

/-- C9 (amended) at concrete inputs: day_of_week 9 is rejected with 400 and
reversed times (10:00 >= 09:00) still create the template, active by
default. -/
theorem recurring_create_spec_witness :
    (RecurringAvailabilityView.post dbW 1 (Param.ok 9)
        (Param.ok (Time.mk 9 0 0)) (Param.ok (Time.mk 10 0 0)) =
      (RecurringResp.serializerErrors, dbW) ∧
      RecurringResp.serializerErrors.status = 400) ∧
    RecurringAvailabilityView.post dbW 1 (Param.ok 1)
        (Param.ok (Time.mk 10 0 0)) (Param.ok (Time.mk 9 0 0)) =
      (RecurringResp.created,
        { dbW with recurrings := dbW.recurrings ++
            [{ id := freshId (dbW.recurrings.map (·.id)),
               consultant := 1, day_of_week := 1,
               start_time := Time.mk 10 0 0, end_time := Time.mk 9 0 0,
               is_active := true }] }) := by
  constructor
  · exact (recurring_create_spec dbW 1 (Param.ok 9)
      (Param.ok (Time.mk 9 0 0)) (Param.ok (Time.mk 10 0 0))
      (by decide)).1 9 rfl (by decide)
  · exact (recurring_create_spec dbW 1 (Param.ok 1)
      (Param.ok (Time.mk 10 0 0)) (Param.ok (Time.mk 9 0 0))
      (by decide)).2.2 1 (Time.mk 10 0 0) (Time.mk 9 0 0) rfl
      (by decide) (by decide) rfl rfl

/-- C10: Create Availability enforces no uniqueness — with a valid
consultant and future date it succeeds and adds one more row matching the
tuple, whatever rows already exist, so identical rows can accumulate — and
when more than one Availability row matches the tuple, Delete answers
Internal (500) and deletes nothing (`get` raises `MultipleObjectsReturned`
into the generic handler). -/
theorem duplicate_slots_delete_internal (db : DB) (today : Date) (pk : Nat)
    (d : Date) (st et : Time) (hc : pk ∈ db.consultants)
    (hfut : ¬Date.le d today) :
    ((ConsultantAvailableTimeCreateView.post db today pk (Param.ok d)
        (Param.ok st) (Param.ok et)).1 = CreateAvailabilityResp.created ∧
      ((ConsultantAvailableTimeCreateView.post db today pk (Param.ok d)
          (Param.ok st) (Param.ok et)).2.availabilities.filter
        (availMatches pk d st et)).length =
        (db.availabilities.filter (availMatches pk d st et)).length + 1) ∧
    (2 ≤ (db.availabilities.filter (availMatches pk d st et)).length →
      ConsultantDeleteAvailability.delete db pk d st et =
        (DeleteResp.internalError, db) ∧
      DeleteResp.internalError.status = 500) := by
  constructor
  · constructor
    · simp [ConsultantAvailableTimeCreateView.post, hc, hfut]
    · simp [ConsultantAvailableTimeCreateView.post, hc, hfut,
        List.filter_append, availMatches]
  · intro hlen
    refine ⟨?_, rfl⟩
    rcases hl : db.availabilities.filter (availMatches pk d st et) with
      _ | ⟨a, _ | ⟨b, t⟩⟩
    · rw [hl] at hlen; simp at hlen
    · rw [hl] at hlen; simp at hlen
    · unfold ConsultantDeleteAvailability.delete
      rw [hl]

/-- Same slot as `slotW` under a different id: the duplicate a second Create
call would produce. -/
def slotD : Availability :=
  ⟨4, 1, ⟨9, 0, 0⟩, ⟨10, 0, 0⟩, ⟨2026, 10, 20⟩, false⟩

/-- Database holding two identical slots for the same tuple. -/
def dbDup : DB := ⟨[7], [1], [slotW, slotD], [], []⟩

/-- C10 at concrete databases: creating over `dbW` adds a second matching
row (no uniqueness check), and deleting on `dbDup` — two rows for the same
tuple — answers 500 and changes nothing. -/
theorem duplicate_slots_delete_internal_witness :
    ((ConsultantAvailableTimeCreateView.post dbW (Date.mk 2026 10 12) 1
        (Param.ok (Date.mk 2026 10 20)) (Param.ok (Time.mk 9 0 0))
        (Param.ok (Time.mk 10 0 0))).1 = CreateAvailabilityResp.created ∧
      ((ConsultantAvailableTimeCreateView.post dbW (Date.mk 2026 10 12) 1
          (Param.ok (Date.mk 2026 10 20)) (Param.ok (Time.mk 9 0 0))
          (Param.ok (Time.mk 10 0 0))).2.availabilities.filter
        (availMatches 1 (Date.mk 2026 10 20) (Time.mk 9 0 0)
          (Time.mk 10 0 0))).length =
        (dbW.availabilities.filter
          (availMatches 1 (Date.mk 2026 10 20) (Time.mk 9 0 0)
            (Time.mk 10 0 0))).length + 1) ∧
    (ConsultantDeleteAvailability.delete dbDup 1 (Date.mk 2026 10 20)
        (Time.mk 9 0 0) (Time.mk 10 0 0) =
      (DeleteResp.internalError, dbDup) ∧
      DeleteResp.internalError.status = 500) := by
  constructor
  · exact (duplicate_slots_delete_internal dbW (Date.mk 2026 10 12) 1
      (Date.mk 2026 10 20) (Time.mk 9 0 0) (Time.mk 10 0 0)
      (by decide) (by decide)).1
  · exact (duplicate_slots_delete_internal dbDup (Date.mk 2026 10 12) 1
      (Date.mk 2026 10 20) (Time.mk 9 0 0) (Time.mk 10 0 0)
      (by decide) (by decide)).2 (by decide)

end ConsultantUser
